import Mathlib

/-!
Shallow embedding of the Resumi matching core
(`backend/location_logic/normalizer.py`, `backend/matching/matcher.py`,
`backend/job_normalization/normalizer.py`, `backend/explanations/generator.py`)
together with proofs about the scoring, filtering, ranking, deduplication and
explanation functions.

Modelling conventions:
* Python `str` is modelled by `String`; the handful of string primitives the
  code uses (`lower`, `strip`, `split(',')`, substring `in`, `title`,
  truthiness of strings/lists) are implemented structurally on `List Char`
  so that concrete instances evaluate inside the kernel.
* Python floats are modelled by `ℚ`; every constant appearing in the scoring
  code (0.1 … 1.0, the 1.2 boost) is an exact decimal, and the only
  comparisons performed are against such constants, so the rational model
  agrees with the float code on all branch decisions stated here.
* Python `dict`/`set` become association lists / `Finset`.
* Fallible code returns `Option`.
-/

/-- Python `s.lower()` (ASCII, which covers every string the tables contain). -/
def pyLower (s : String) : String := ⟨s.data.map Char.toLower⟩

/-- Characters Python `str.strip()` removes by default. -/
def isPySpace (c : Char) : Bool := c = ' ' || c = '\t' || c = '\n' || c = '\r'

/-- Python `s.strip()`. -/
def pyStrip (s : String) : String :=
  ⟨((s.data.dropWhile isPySpace).reverse.dropWhile isPySpace).reverse⟩

/-- Python `s.split(',')` on the character list. -/
def splitCommaAux : List Char → List (List Char)
  | [] => [[]]
  | c :: cs =>
    if c = ',' then [] :: splitCommaAux cs
    else
      match splitCommaAux cs with
      | [] => [[c]]
      | p :: ps => (c :: p) :: ps

/-- Python `s.split(',')`. -/
def pySplitComma (s : String) : List String :=
  (splitCommaAux s.data).map (fun l => ⟨l⟩)

/-- Contiguous-sublist test on character lists (Python `pat in s`). -/
def infixAux (pat : List Char) : List Char → Bool
  | [] => pat.isEmpty
  | c :: cs => pat.isPrefixOf (c :: cs) || infixAux pat cs

/-- Python `pat in s` for strings. -/
def pyContains (s pat : String) : Bool := infixAux pat.data s.data

/-- Helper for Python `str.title()`: `prevCased` records whether the previous
character was alphabetic. -/
def titleAux : Bool → List Char → List Char
  | _, [] => []
  | prevCased, c :: cs =>
    (if prevCased then c.toLower else c.toUpper) :: titleAux c.isAlpha cs

/-- Python `s.title()` (ASCII). -/
def pyTitle (s : String) : String := ⟨titleAux false s.data⟩

/-- Python truthiness of an optional string (`None` and `""` are falsy). -/
def truthy : Option String → Bool
  | none => false
  | some s => !(s == "")

/-- Python `sep.join(parts)`. -/
def pyJoin (sep : String) : List String → String
  | [] => ""
  | [s] => s
  | s :: rest => s ++ sep ++ pyJoin sep rest

/-- Python `s[:n]` on strings. -/
def strTake (s : String) (n : Nat) : String := ⟨s.data.take n⟩

/-! ## `backend/location_logic/normalizer.py` -/

/-- `NormalizedLocation` dataclass. -/
structure NormalizedLocation where
  city : Option String
  country : Option String
  location_type : String
  raw : String
deriving DecidableEq

/-- `COUNTRY_MAPPINGS` table. -/
def COUNTRY_MAPPINGS : List (String × String) :=
  [("usa", "USA"), ("us", "USA"), ("united states", "USA"),
   ("canada", "Canada"), ("ca", "Canada"),
   ("uk", "United Kingdom"), ("gb", "United Kingdom"),
   ("united kingdom", "United Kingdom"), ("germany", "Germany"),
   ("france", "France"),
   ("india", "India"), ("in", "India"), ("uae", "UAE"),
   ("united arab emirates", "UAE"), ("dubai", "UAE"),
   ("singapore", "Singapore"), ("sg", "Singapore"),
   ("australia", "Australia"), ("au", "Australia")]

/-- `CITY_ALIASES` table. -/
def CITY_ALIASES : List (String × String) :=
  [("bengaluru", "Bangalore"), ("bangalore", "Bangalore"),
   ("bombay", "Mumbai"), ("mumbai", "Mumbai"),
   ("new delhi", "Delhi"), ("delhi", "Delhi"),
   ("gurugram", "Gurgaon"), ("gurgaon", "Gurgaon")]

/-- `REMOTE_KEYWORDS`. -/
def REMOTE_KEYWORDS : List String :=
  ["remote", "anywhere", "worldwide", "global", "work from home", "wfh"]

/-- `HYBRID_KEYWORDS`. -/
def HYBRID_KEYWORDS : List String := ["hybrid", "flexible", "remote-friendly"]

/-- `_normalize_country`. -/
def _normalize_country (country_str : String) : String :=
  let country_lower := pyStrip (pyLower country_str)
  ((COUNTRY_MAPPINGS.lookup country_lower).getD (pyTitle country_str))

/-- `_parse_city_country`. -/
def _parse_city_country (location_str : String) : Option String × Option String :=
  let parts := (pySplitComma location_str).map pyStrip
  match parts with
  | [] => (none, none)
  | [single] =>
    match CITY_ALIASES.lookup (pyLower single) with
    | some aliased => (some aliased, none)
    | none => (some single, none)
  | [first, second] =>
    let city := (CITY_ALIASES.lookup (pyLower first)).getD first
    (some city, some (_normalize_country second))
  | first :: _ :: rest =>
    let city := (CITY_ALIASES.lookup (pyLower first)).getD first
    (some city, some (_normalize_country ((rest.getLast?).getD "")))

/-- `normalize_location`. -/
def normalize_location (location_str : String) : NormalizedLocation :=
  if location_str = "" then
    { city := none, country := none, location_type := "onsite", raw := "Not specified" }
  else
    let location_lower := pyStrip (pyLower location_str)
    if REMOTE_KEYWORDS.any (fun k => pyContains location_lower k) then
      { city := none, country := none, location_type := "remote", raw := location_str }
    else
      let location_type :=
        if HYBRID_KEYWORDS.any (fun k => pyContains location_lower k) then "hybrid"
        else "onsite"
      let cc := _parse_city_country location_str
      { city := cc.1, country := cc.2, location_type := location_type, raw := location_str }

/-- Condition of the exact-city comparison inside `score_location_match`
(`job_location.city and pref.city and job_location.city.lower() == pref.city.lower()`). -/
def cityMatch (job_location pref : NormalizedLocation) : Bool :=
  truthy job_location.city && truthy pref.city &&
    (pyLower (job_location.city.getD "") == pyLower (pref.city.getD ""))

/-- Condition of the same-country comparison inside `score_location_match`. -/
def countryMatch (job_location pref : NormalizedLocation) : Bool :=
  truthy job_location.country && truthy pref.country &&
    (pyLower (job_location.country.getD "") == pyLower (pref.country.getD ""))

/-- One iteration of the comparison loop of `score_location_match` (the
`continue` after a city match makes the country comparison an `else`). -/
def locStep (job_location : NormalizedLocation) (best_score : ℚ)
    (pref : NormalizedLocation) : ℚ :=
  if cityMatch job_location pref then max best_score 1
  else if countryMatch job_location pref then max best_score (7/10)
  else best_score

/-- The accumulating comparison loop of `score_location_match`. -/
def locLoop (job_location : NormalizedLocation)
    (prefs : List NormalizedLocation) : ℚ :=
  prefs.foldl (locStep job_location) 0

/-- `score_location_match`. -/
def score_location_match (job_location : NormalizedLocation)
    (preferred_locations : List String)
    (open_to_relocation : Bool := false) (open_to_international : Bool := false)
    (remote_only : Bool := false) : ℚ :=
  if job_location.location_type = "remote" then 1
  else if remote_only && !(job_location.location_type == "remote") then 1/5
  else if preferred_locations = [] then 1/2
  else
    let normalized_prefs := preferred_locations.map normalize_location
    let best_score := locLoop job_location normalized_prefs
    if best_score = 0 then
      if open_to_relocation then
        let best_score' :=
          if truthy job_location.country then
            if normalized_prefs.any (fun pref => countryMatch job_location pref) then
              max best_score (1/2)
            else best_score
          else best_score
        if best_score' = 0 && open_to_international then 2/5
        else if best_score' = 0 then 1/10
        else best_score'
      else best_score
    else best_score

/-! ## `backend/job_normalization/normalizer.py` -/

/-- Raw job dictionary handed to `normalize_job` (source-agnostic map; the
keys the normalizer reads, each possibly absent). -/
structure RawJob where
  title : Option String
  company : Option String
  location_raw : Option String
  description : Option String
  source : Option String
  apply_url : Option String
  employment_type : Option String
  departments : Option (List String)
deriving DecidableEq

/-- `NormalizedJob` dataclass.  The `location` dict (fixed keys
`city`/`country`/`type`/`raw`) is flattened into four fields. -/
structure NormalizedJob where
  id : String
  title : String
  company : String
  location_city : Option String
  location_country : Option String
  location_type : String
  location_raw : String
  source : String
  apply_url : String
  description : String
  required_skills : List String
  preferred_skills : List String
  employment_type : String
  departments : List String
  raw_data : RawJob
deriving DecidableEq

/-- `normalize_job`.  The MD5-based `_generate_job_id` and the NLP-backed
`extract_skills` call out of this module; the embedding abstracts them as
function parameters `gen_id` and `extract_skills`.  On the typed record
model every operation in the body is total, so the `except` branch of the
source (which returns `None`) is unreachable and the function always
returns `some`. -/
def normalize_job (gen_id : String → String → String → String)
    (extract_skills : String → List String) (raw_job : RawJob) :
    Option NormalizedJob :=
  let job_id := gen_id (raw_job.title.getD "") (raw_job.company.getD "")
    (raw_job.location_raw.getD "")
  let location := normalize_location (raw_job.location_raw.getD "")
  let description := raw_job.description.getD ""
  let skills := extract_skills description
  let required_skills := skills.take 10
  let preferred_skills : List String := []
  some
    { id := job_id
      title := raw_job.title.getD "Unknown"
      company := raw_job.company.getD "Unknown"
      location_city := location.city
      location_country := location.country
      location_type := location.location_type
      location_raw := location.raw
      source := raw_job.source.getD "unknown"
      apply_url := raw_job.apply_url.getD ""
      description := strTake description 1000
      required_skills := required_skills
      preferred_skills := preferred_skills
      employment_type := raw_job.employment_type.getD "full-time"
      departments := raw_job.departments.getD []
      raw_data := raw_job }

/-- Loop of `deduplicate_jobs`, with the `seen_ids` accumulator explicit
(the source uses a `set`; membership in the accumulated list is the same
test). -/
def dedupGo (seen_ids : List String) : List NormalizedJob → List NormalizedJob
  | [] => []
  | job :: rest =>
    if job.id ∈ seen_ids then dedupGo seen_ids rest
    else job :: dedupGo (job.id :: seen_ids) rest

/-- `deduplicate_jobs`. -/
def deduplicate_jobs (jobs : List NormalizedJob) : List NormalizedJob :=
  dedupGo [] jobs

/-! ## `backend/profile_extraction/schemas.py` -/

/-- `ProfileSchema` pydantic model. -/
structure ProfileSchema where
  primary_role : String
  seniority : String
  skills : List String
  tools : List String
  experience_years : Nat
  education : List String
  location_mentions : List String
  skill_clusters : List String
  job_titles : List String
deriving DecidableEq

/-- `UserPreferences` pydantic model. -/
structure UserPreferences where
  career_goals : Option String
  preferred_locations : List String
  open_to_relocation : Bool
  open_to_international : Bool
  remote_only : Bool
deriving DecidableEq

/-! ## `backend/matching/matcher.py` -/

/-- `JobMatch` dataclass (`domain_score` is computed in `_score_job` but not
stored, as in the source). -/
structure JobMatch where
  job : NormalizedJob
  total_score : ℚ
  location_score : ℚ
  skill_score : ℚ
  career_score : ℚ

/-- `_calculate_skill_similarity`. -/
def _calculate_skill_similarity (user_skills job_skills : List String) : ℚ :=
  if user_skills = [] ∨ job_skills = [] then 0
  else
    let user_set := (user_skills.map pyLower).toFinset
    let job_set := (job_skills.map pyLower).toFinset
    let intersection := (user_set ∩ job_set).card
    let union := (user_set ∪ job_set).card
    if union = 0 then 0
    else
      let jaccard : ℚ := (intersection : ℚ) / (union : ℚ)
      if 5 ≤ intersection then min 1 (jaccard * (6/5)) else jaccard

/-- `seniority_levels` table of `_calculate_career_fit`. -/
def seniority_levels : List (String × Int) :=
  [("junior", 1), ("mid", 2), ("senior", 3), ("lead", 4), ("principal", 5)]

/-- `_calculate_career_fit` (`user_role` is accepted and ignored, as in the
source). -/
def _calculate_career_fit (user_seniority _user_role job_title : String) : ℚ :=
  let job_title_lower := pyLower job_title
  let user_level := (seniority_levels.lookup user_seniority).getD 2
  let job_level : Int :=
    if ["junior", "entry", "associate"].any (fun w => pyContains job_title_lower w) then 1
    else if ["senior", "sr"].any (fun w => pyContains job_title_lower w) then 3
    else if ["lead", "staff", "principal"].any (fun w => pyContains job_title_lower w) then 4
    else 2
  let level_diff := job_level - user_level
  if level_diff = 0 then 7/10
  else if level_diff = 1 then 9/10
  else if level_diff = -1 then 2/5
  else if 2 ≤ level_diff then 3/5
  else 1/5

/-- `role_keywords` table of `_calculate_domain_fit`. -/
def role_keywords : List (String × List String) :=
  [("strategy", ["strategy", "strategic", "business strategy", "corporate strategy"]),
   ("consulting", ["consultant", "consulting", "advisory", "advisory services"]),
   ("operations", ["operations", "ops", "supply chain", "logistics", "process"]),
   ("marketing", ["marketing", "brand", "digital marketing", "growth", "demand gen"]),
   ("sales", ["sales", "business development", "account", "revenue"]),
   ("finance", ["finance", "financial", "fp&a", "investment", "accounting"]),
   ("hr", ["hr", "human resources", "talent", "people", "recruiting"])]

/-- `_calculate_domain_fit`. -/
def _calculate_domain_fit (user_role job_title job_description : String) : ℚ :=
  let job_text := pyLower (job_title ++ " " ++ job_description)
  let user_keywords := (role_keywords.lookup user_role).getD []
  if user_keywords = [] then 1/2
  else
    let hits := (user_keywords.filter (fun keyword => pyContains job_text keyword)).length
    if 2 ≤ hits then 1
    else if hits = 1 then 7/10
    else 3/10

/-- Business-role list of `_score_job`. -/
def business_roles : List String :=
  ["strategy", "consulting", "operations", "marketing", "sales", "finance", "hr"]

/-- `_score_job`. -/
def _score_job (job : NormalizedJob) (profile : ProfileSchema)
    (preferences : UserPreferences) : JobMatch :=
  let job_location : NormalizedLocation :=
    { city := job.location_city, country := job.location_country,
      location_type := job.location_type, raw := job.location_raw }
  let location_score := score_location_match job_location
    preferences.preferred_locations preferences.open_to_relocation
    preferences.open_to_international preferences.remote_only
  let skill_score := _calculate_skill_similarity
    (profile.skills ++ profile.tools) job.required_skills
  let career_score := _calculate_career_fit profile.seniority
    profile.primary_role job.title
  let domain_score := _calculate_domain_fit profile.primary_role
    job.title job.description
  let is_business_role := profile.primary_role ∈ business_roles
  let total_score : ℚ :=
    if is_business_role then
      3/10 * location_score + 2/5 * skill_score + 1/5 * career_score
        + 1/10 * domain_score
    else
      1/2 * location_score + 2/5 * skill_score + 1/10 * career_score
  { job := job, total_score := total_score, location_score := location_score,
    skill_score := skill_score, career_score := career_score }

/-- `_apply_hard_filters`. -/
def _apply_hard_filters (jobs : List NormalizedJob)
    (preferences : UserPreferences) : List NormalizedJob :=
  jobs.filter (fun job => !(preferences.remote_only && !(job.location_type == "remote")))

/-- Stable descending insertion used to model Python's stable
`sort(key=..., reverse=True)`: a new element passes over strictly greater
scores and stops in front of the first element whose score is `≤` its own,
so earlier input stays ahead on ties. -/
def insertDesc (x : JobMatch) : List JobMatch → List JobMatch
  | [] => [x]
  | y :: l =>
    if y.total_score ≤ x.total_score then x :: y :: l
    else y :: insertDesc x l

/-- Stable sort by descending `total_score` (Python's list `sort` is stable,
and with `reverse=True` equal elements keep their input order; the stable
descending sort is unique, so this insertion sort computes the same list). -/
def sortDesc : List JobMatch → List JobMatch
  | [] => []
  | x :: xs => insertDesc x (sortDesc xs)

/-- `match_jobs` (the Python `if match and ...` truthiness test is vacuous:
`_score_job` always returns a `JobMatch` object, which is truthy). -/
def match_jobs (jobs : List NormalizedJob) (profile : ProfileSchema)
    (preferences : UserPreferences) (max_results : Nat := 20) : List JobMatch :=
  let filtered_jobs := _apply_hard_filters jobs preferences
  let scored_jobs := (filtered_jobs.map
      (fun job => _score_job job profile preferences)).filter
    (fun m => (3/10 : ℚ) ≤ m.total_score)
  (sortDesc scored_jobs).take max_results

/-! ## `backend/explanations/generator.py` -/

/-- Result record of `generate_explanation`. -/
structure Explanation where
  why_match : String
  skill_matches : List String
  skill_gaps : List String
  location_reasoning : String
deriving DecidableEq

/-- `_find_skill_matches`. -/
def _find_skill_matches (user_skills job_skills : List String) : List String :=
  let user_set := (user_skills.map pyLower).toFinset
  let job_set := (job_skills.map pyLower).toFinset
  let overlap := user_set ∩ job_set
  user_skills.filter (fun skill => pyLower skill ∈ overlap)

/-- `_find_skill_gaps`. -/
def _find_skill_gaps (user_skills job_skills : List String) : List String :=
  let user_set := (user_skills.map pyLower).toFinset
  let job_set := (job_skills.map pyLower).toFinset
  let gaps := job_set \ user_set
  job_skills.filter (fun skill => pyLower skill ∈ gaps)

/-- `_generate_why_match`.  Each `if` of the source appends at most one
sentence to `reasons`; the fallback sentence is used when no threshold
fired. -/
def _generate_why_match (m : JobMatch) (profile : ProfileSchema) : String :=
  let job := m.job
  let reasons : List String :=
    (if (3/5 : ℚ) ≤ m.skill_score then
        ["Strong alignment with your " ++ profile.primary_role ++ " background"]
      else if (2/5 : ℚ) ≤ m.skill_score then
        ["Good fit for your " ++ profile.primary_role ++ " experience"]
      else [])
    ++ (if (4/5 : ℚ) ≤ m.career_score then
        ["Excellent career progression opportunity"]
      else if (3/5 : ℚ) ≤ m.career_score then
        ["Aligns with your career level"]
      else [])
    ++ (if (9/10 : ℚ) ≤ m.location_score then
        ["Perfect location match"]
      else if (7/10 : ℚ) ≤ m.location_score then
        ["Good location fit"]
      else [])
    ++ (if profile.skill_clusters ≠ [] ∧
          (profile.skill_clusters.any (fun cluster =>
            pyContains (pyLower job.title) cluster ||
            pyContains (pyLower job.description) cluster)) then
        ["Matches your expertise in " ++
          pyJoin ", " (profile.skill_clusters.take 2)]
      else [])
  let reasons :=
    if reasons = [] then ["Potential fit based on your background"] else reasons
  pyJoin ". " reasons ++ "."

/-- Python `f"...{opt}"` interpolation of an optional string. -/
def optStr : Option String → String
  | none => "None"
  | some s => s

/-- `_generate_location_reasoning`. -/
def _generate_location_reasoning (m : JobMatch) (job : NormalizedJob) : String :=
  if job.location_type = "remote" then "Remote position - work from anywhere"
  else if (9/10 : ℚ) ≤ m.location_score then
    "Located in your preferred area: " ++ job.location_raw
  else if (7/10 : ℚ) ≤ m.location_score then
    "Same country as your preference: " ++ optStr job.location_country
  else if (1/2 : ℚ) ≤ m.location_score then
    "Relocation opportunity to " ++ job.location_raw
  else "Location: " ++ job.location_raw

/-- `generate_explanation` (the Python `not why_match or not skill_matches`
test, where a string is falsy exactly when empty and a list exactly when
empty). -/
def generate_explanation (m : JobMatch) (profile : ProfileSchema) :
    Option Explanation :=
  let job := m.job
  let why_match := _generate_why_match m profile
  let skill_matches := _find_skill_matches (profile.skills ++ profile.tools)
    job.required_skills
  let skill_gaps := _find_skill_gaps (profile.skills ++ profile.tools)
    job.required_skills
  let location_reasoning := _generate_location_reasoning m job
  if why_match = "" ∨ skill_matches = [] then none
  else some
    { why_match := why_match
      skill_matches := skill_matches.take 8
      skill_gaps := skill_gaps.take 5
      location_reasoning := location_reasoning }

/-! ## Specification-side definitions (stated from the claims, to be compared
with the source embedding) -/

/-- Case-insensitive skill set of a list of skill strings. -/
def skillSet (skills : List String) : Finset String :=
  (skills.map pyLower).toFinset

/-- Jaccard similarity of the case-insensitive skill sets. -/
def jaccardSpec (a b : List String) : ℚ :=
  ((skillSet a ∩ skillSet b).card : ℚ) / ((skillSet a ∪ skillSet b).card : ℚ)

/-- Skill score as claim C5 states it: Jaccard similarity, 0 when either
list is empty, the value multiplied by 1.2 and clamped to 1 when the
intersection has at least 5 members. -/
def skillSimSpec (a b : List String) : ℚ :=
  if a = [] ∨ b = [] then 0
  else if 5 ≤ (skillSet a ∩ skillSet b).card then
    min 1 (jaccardSpec a b * (6/5))
  else jaccardSpec a b

/-- Score a single normalized preference against the job location: 1 for an
exact city match, 0.7 for a same-country match, 0 otherwise. -/
def prefMatchScore (job_location pref : NormalizedLocation) : ℚ :=
  if cityMatch job_location pref then 1
  else if countryMatch job_location pref then 7/10
  else 0

/-- Best preference score: maximum of `prefMatchScore` over the normalized
preferences. -/
def bestPrefScore (job_location : NormalizedLocation)
    (prefs : List String) : ℚ :=
  ((prefs.map normalize_location).map (prefMatchScore job_location)).foldl max 0

/-- Whether the job's country (nonempty) equals some normalized preference's
country, case-insensitively. -/
def sharesCountry (job_location : NormalizedLocation)
    (prefs : List String) : Bool :=
  truthy job_location.country &&
    (prefs.map normalize_location).any (fun p => countryMatch job_location p)

/-- Location-score cascade in the claim's form, amended in step (5): the
0.5/0.4/0.1 fallbacks apply only under `open_to_relocation`; with
`open_to_relocation` false and no preference matched the score is 0. -/
def locationScoreSpec (job_location : NormalizedLocation)
    (prefs : List String)
    (open_to_relocation open_to_international remote_only : Bool) : ℚ :=
  if job_location.location_type = "remote" then 1
  else if remote_only then 1/5
  else if prefs = [] then 1/2
  else if bestPrefScore job_location prefs ≠ 0 then
    bestPrefScore job_location prefs
  else if open_to_relocation then
    if sharesCountry job_location prefs then 1/2
    else if open_to_international then 2/5
    else 1/10
  else 0

/-- First-seen-wins deduplication by `id`, as the claim states it: keep each
element whose id has not occurred before, in input order. -/
def firstOccurrences : List NormalizedJob → List NormalizedJob
  | [] => []
  | j :: rest => j :: firstOccurrences (rest.filter (fun k => k.id != j.id))
termination_by l => l.length
decreasing_by
  simp only [List.length_cons]
  exact Nat.lt_succ_of_le (List.length_filter_le _ _)

/-- Descending order on match scores (the sort key of `match_jobs`). -/
def scoreGE (a b : JobMatch) : Prop := b.total_score ≤ a.total_score

/-- Concrete raw job used for instantiating theorems. -/
def sampleRawJob : RawJob :=
  { title := some "Data Engineer", company := some "Acme",
    location_raw := some "Delhi, India", description := some "desc",
    source := none, apply_url := none, employment_type := none,
    departments := none }

/-- Concrete normalized job used for instantiating theorems. -/
def sampleJob : NormalizedJob :=
  { id := "job1", title := "Data Engineer", company := "Acme",
    location_city := some "Delhi", location_country := some "India",
    location_type := "onsite", location_raw := "Delhi, India",
    source := "test", apply_url := "", description := "desc",
    required_skills := ["java"], preferred_skills := [],
    employment_type := "full-time", departments := [],
    raw_data := sampleRawJob }

/-- Concrete match record used for instantiating theorems. -/
def sampleMatch : JobMatch :=
  { job := sampleJob, total_score := 1, location_score := 1,
    skill_score := 0, career_score := 1 }

/-- Concrete profile used for instantiating theorems. -/
def sampleProfile : ProfileSchema :=
  { primary_role := "software engineer", seniority := "mid",
    skills := ["python"], tools := [], experience_years := 3,
    education := [], location_mentions := [], skill_clusters := [],
    job_titles := [] }

/-! ## Theorems -/

/-- C2: the matcher's total score is the business-role weighted sum
(0.3, 0.4, 0.2, 0.1 over location/skill/career/domain) when
`profile.primary_role` is one of {strategy, consulting, operations,
marketing, sales, finance, hr}, and otherwise the (0.5, 0.4, 0.1) sum
over location/skill/career with the domain score not contributing. -/
theorem total_score_weighted_sum (job : NormalizedJob)
    (profile : ProfileSchema) (preferences : UserPreferences) :
    (_score_job job profile preferences).total_score =
      (if profile.primary_role ∈ business_roles then
        3/10 * score_location_match
            { city := job.location_city, country := job.location_country,
              location_type := job.location_type, raw := job.location_raw }
            preferences.preferred_locations preferences.open_to_relocation
            preferences.open_to_international preferences.remote_only
          + 2/5 * _calculate_skill_similarity
              (profile.skills ++ profile.tools) job.required_skills
          + 1/5 * _calculate_career_fit profile.seniority
              profile.primary_role job.title
          + 1/10 * _calculate_domain_fit profile.primary_role
              job.title job.description
      else
        1/2 * score_location_match
            { city := job.location_city, country := job.location_country,
              location_type := job.location_type, raw := job.location_raw }
            preferences.preferred_locations preferences.open_to_relocation
            preferences.open_to_international preferences.remote_only
          + 2/5 * _calculate_skill_similarity
              (profile.skills ++ profile.tools) job.required_skills
          + 1/10 * _calculate_career_fit profile.seniority
              profile.primary_role job.title) := rfl

/-- C5: the skill score is the case-insensitive Jaccard similarity of the
two skill lists, 0 when either list is empty, and boosted by 1.2 (clamped
to 1) when the intersection has at least 5 members. -/
theorem skill_similarity_is_jaccard (user_skills job_skills : List String) :
    _calculate_skill_similarity user_skills job_skills =
      skillSimSpec user_skills job_skills := by
  unfold _calculate_skill_similarity skillSimSpec jaccardSpec skillSet
  by_cases hempty : user_skills = [] ∨ job_skills = []
  · simp [hempty]
  · rw [if_neg hempty, if_neg hempty]
    push_neg at hempty
    have hne : ((user_skills.map pyLower).toFinset ∪
        (job_skills.map pyLower).toFinset).card ≠ 0 := by
      rcases user_skills with _ | ⟨s, rest⟩
      · exact absurd rfl hempty.1
      · have hmem : pyLower s ∈ ((s :: rest).map pyLower).toFinset := by
          simp [List.mem_toFinset]
        refine Finset.card_ne_zero_of_mem (Finset.mem_union_left _ hmem)
    rw [if_neg hne]

/-- The loop accumulator of `score_location_match` stays within `[0, 1]`. -/
theorem foldl_locStep_bounds (job_location : NormalizedLocation) :
    ∀ (prefs : List NormalizedLocation) (b : ℚ), 0 ≤ b → b ≤ 1 →
      0 ≤ prefs.foldl (locStep job_location) b ∧
        prefs.foldl (locStep job_location) b ≤ 1 := by
  intro prefs
  induction prefs with
  | nil => intro b h0 h1; exact ⟨h0, h1⟩
  | cons p l ih =>
    intro b h0 h1
    simp only [List.foldl_cons]
    apply ih
    · unfold locStep
      split_ifs
      · exact le_trans h0 (le_max_left _ _)
      · exact le_trans h0 (le_max_left _ _)
      · exact h0
    · unfold locStep
      split_ifs
      · exact max_le h1 le_rfl
      · exact max_le h1 (by norm_num)
      · exact h1

/-- `locLoop` is within `[0, 1]`. -/
theorem locLoop_bounds (job_location : NormalizedLocation)
    (prefs : List NormalizedLocation) :
    0 ≤ locLoop job_location prefs ∧ locLoop job_location prefs ≤ 1 :=
  foldl_locStep_bounds job_location prefs 0 le_rfl (by norm_num)

set_option maxHeartbeats 1000000 in
/-- C8: `score_location_match` always lies in `[0, 1]`, and a remote job
scores exactly 1 whatever the preferences and flags are. -/
theorem location_score_bounded (job_location : NormalizedLocation)
    (prefs : List String) (r i ro : Bool) :
    0 ≤ score_location_match job_location prefs r i ro ∧
      score_location_match job_location prefs r i ro ≤ 1 ∧
      (job_location.location_type = "remote" →
        score_location_match job_location prefs r i ro = 1) := by
  obtain ⟨hb0, hb1⟩ := locLoop_bounds job_location (prefs.map normalize_location)
  refine ⟨?_, ?_, ?_⟩
  · simp only [score_location_match]
    set L := locLoop job_location (prefs.map normalize_location) with hL
    have hmax0 : 0 ≤ L ⊔ (1/2 : ℚ) := le_trans hb0 (le_max_left _ _)
    split_ifs <;> first
      | assumption
      | norm_num
  · simp only [score_location_match]
    set L := locLoop job_location (prefs.map normalize_location) with hL
    have hmax1 : L ⊔ (1/2 : ℚ) ≤ 1 := max_le hb1 (by norm_num)
    split_ifs <;> first
      | assumption
      | norm_num
  · intro h
    simp [score_location_match, h]

/-- The comparison loop is a running maximum of per-preference scores. -/
theorem foldl_locStep_eq_max (job_location : NormalizedLocation) :
    ∀ (l : List NormalizedLocation) (b : ℚ), 0 ≤ b →
      l.foldl (locStep job_location) b =
        (l.map (prefMatchScore job_location)).foldl max b := by
  intro l
  induction l with
  | nil => intro b _; rfl
  | cons p t ih =>
    intro b hb
    simp only [List.foldl_cons, List.map_cons]
    have hstep : locStep job_location b p =
        max b (prefMatchScore job_location p) := by
      unfold locStep prefMatchScore
      split_ifs
      · rfl
      · rfl
      · exact (max_eq_left hb).symm
    rw [hstep]
    exact ih _ (le_trans hb (le_max_left _ _))

set_option maxHeartbeats 1000000 in
/-- C1 (amended): `score_location_match` follows the priority cascade —
remote job 1.0; else `remote_only` 0.2; else empty preferences 0.5; else
the best per-preference score (1.0 exact city, 0.7 same country) when some
preference matched; and when none matched the 0.5/0.4/0.1 fallbacks apply
only under `open_to_relocation` (0.5 on a shared country, else 0.4 with
`open_to_international`, else 0.1), while with `open_to_relocation` false
the score is 0.0. -/
theorem location_score_priority_cascade (job_location : NormalizedLocation)
    (prefs : List String)
    (open_to_relocation open_to_international remote_only : Bool) :
    score_location_match job_location prefs open_to_relocation
        open_to_international remote_only =
      locationScoreSpec job_location prefs open_to_relocation
        open_to_international remote_only := by
  have hload := foldl_locStep_eq_max job_location
    (prefs.map normalize_location) 0 le_rfl
  simp only [score_location_match, locationScoreSpec, locLoop, bestPrefScore,
    sharesCountry]
  by_cases h1 : job_location.location_type = "remote"
  · rw [if_pos h1, if_pos h1]
  · rw [if_neg h1, if_neg h1]
    have hbeq : (job_location.location_type == "remote") = false :=
      beq_eq_false_iff_ne.mpr h1
    rw [hbeq]
    simp only [Bool.not_false, Bool.and_true]
    by_cases hro : remote_only = true
    · rw [if_pos hro, if_pos hro]
    · rw [if_neg hro, if_neg hro]
      by_cases hpe : prefs = []
      · rw [if_pos hpe, if_pos hpe]
      · rw [if_neg hpe, if_neg hpe]
        rw [hload]
        by_cases hbest :
            ((prefs.map normalize_location).map
              (prefMatchScore job_location)).foldl max 0 = 0
        · rw [if_pos hbest, if_neg (not_not.mpr hbest)]
          by_cases hr : open_to_relocation = true
          · rw [if_pos hr, if_pos hr]
            rw [hbest]
            by_cases htc : truthy job_location.country = true
            · by_cases hany : (prefs.map normalize_location).any
                  (fun p => countryMatch job_location p) = true
              · simp only [htc, hany, if_true, Bool.true_and, if_pos]
                norm_num
              · simp only [htc, hany, Bool.true_and, if_true,
                  Bool.false_eq_true, if_false]
                norm_num
            · simp only [htc, Bool.false_eq_true, if_false, Bool.false_and]
              norm_num
          · rw [if_neg hr, if_neg hr]
            exact hbest
        · rw [if_neg hbest, if_pos hbest]

/-- Normalization of the job location string "Bangalore, India". -/
theorem normalize_bangalore_india :
    normalize_location "Bangalore, India" =
      { city := some "Bangalore", country := some "India",
        location_type := "onsite", raw := "Bangalore, India" } := by decide

/-- Normalization of the job location string "Delhi, India". -/
theorem normalize_delhi_india :
    normalize_location "Delhi, India" =
      { city := some "Delhi", country := some "India",
        location_type := "onsite", raw := "Delhi, India" } := by decide

/-- Normalization of the bare preference string "Bangalore": the city alias
resolves, but no country is produced. -/
theorem normalize_bangalore_pref :
    normalize_location "Bangalore" =
      { city := some "Bangalore", country := none,
        location_type := "onsite", raw := "Bangalore" } := by decide

/-- Score of the "Bangalore, India" job against the preference list
["Bangalore"]: the exact city match yields 1. -/
theorem score_eval_bangalore :
    score_location_match (normalize_location "Bangalore, India")
      ["Bangalore"] false false false = 1 := by
  rw [normalize_bangalore_india]
  have hcm : cityMatch
      { city := some "Bangalore", country := some "India",
        location_type := "onsite", raw := "Bangalore, India" }
      (normalize_location "Bangalore") = true := by decide
  simp only [score_location_match, locLoop, List.map_cons, List.map_nil,
    List.foldl_cons, List.foldl_nil, locStep, hcm, if_true]
  norm_num

/-- Score of the "Delhi, India" job against the preference list
["Bangalore"]: no city match, and the preference has no country, so with
all flags false the score is 0. -/
theorem score_eval_delhi :
    score_location_match (normalize_location "Delhi, India")
      ["Bangalore"] false false false = 0 := by
  rw [normalize_delhi_india]
  have hcm : cityMatch
      { city := some "Delhi", country := some "India",
        location_type := "onsite", raw := "Delhi, India" }
      (normalize_location "Bangalore") = false := by decide
  have hco : countryMatch
      { city := some "Delhi", country := some "India",
        location_type := "onsite", raw := "Delhi, India" }
      (normalize_location "Bangalore") = false := by decide
  simp only [score_location_match, locLoop, List.map_cons, List.map_nil,
    List.foldl_cons, List.foldl_nil, locStep, hcm, hco]
  norm_num
  all_goals decide

/-- Score of a "Paris, France" job against ["Bangalore"] with
`open_to_relocation = false` and `open_to_international = true`: the
fallback block is guarded by `open_to_relocation`, so the score is 0. -/
theorem score_eval_paris :
    score_location_match (normalize_location "Paris, France")
      ["Bangalore"] false true false = 0 := by
  have hjob : normalize_location "Paris, France" =
      { city := some "Paris", country := some "France",
        location_type := "onsite", raw := "Paris, France" } := by decide
  rw [hjob]
  have hcm : cityMatch
      { city := some "Paris", country := some "France",
        location_type := "onsite", raw := "Paris, France" }
      (normalize_location "Bangalore") = false := by decide
  have hco : countryMatch
      { city := some "Paris", country := some "France",
        location_type := "onsite", raw := "Paris, France" }
      (normalize_location "Bangalore") = false := by decide
  simp only [score_location_match, locLoop, List.map_cons, List.map_nil,
    List.foldl_cons, List.foldl_nil, locStep, hcm, hco]
  norm_num
  all_goals decide

/-- C1 (counterexample): at the onsite job "Paris, France" with preferences
["Bangalore"], `open_to_relocation = false` and
`open_to_international = true`, the claim's step (5) demands 0.4, but the
code returns 0 — the 0.4/0.1 fallbacks are reachable only when
`open_to_relocation` is true. -/
theorem location_score_cascade_counterexample :
    score_location_match (normalize_location "Paris, France")
        ["Bangalore"] false true false = 0 ∧ (0 : ℚ) ≠ 2/5 :=
  ⟨score_eval_paris, by norm_num⟩

/-- C3 (amended): with preferences ["Bangalore"] and all flags false, a job
in "Bangalore, India" scores 1.0; a job in "Delhi, India" scores 0.0 (not
0.7: the preference "Bangalore" normalizes without a country, so no
same-country match is possible). -/
theorem bangalore_delhi_preference_scores :
    score_location_match (normalize_location "Bangalore, India")
        ["Bangalore"] false false false = 1 ∧
      score_location_match (normalize_location "Delhi, India")
        ["Bangalore"] false false false = 0 :=
  ⟨score_eval_bangalore, score_eval_delhi⟩

/-- C3 (counterexample): the claim says the "Delhi, India" job scores 0.7
against ["Bangalore"], but the code scores it 0. -/
theorem delhi_same_country_counterexample :
    score_location_match (normalize_location "Delhi, India")
        ["Bangalore"] false false false ≠ 7/10 := by
  rw [score_eval_delhi]
  norm_num

/-- Unfolding lemma: `firstOccurrences` of the empty list. -/
theorem firstOccurrences_nil : firstOccurrences [] = [] := by
  rw [firstOccurrences]

/-- Unfolding lemma: `firstOccurrences` of a cons. -/
theorem firstOccurrences_cons (j : NormalizedJob) (rest : List NormalizedJob) :
    firstOccurrences (j :: rest) =
      j :: firstOccurrences (rest.filter (fun k => k.id != j.id)) := by
  rw [firstOccurrences]

/-- `dedupGo` keeps exactly the first occurrences of ids not already seen. -/
theorem dedupGo_eq_firstOccurrences :
    ∀ (l : List NormalizedJob) (seen : List String),
      dedupGo seen l =
        firstOccurrences (l.filter (fun j => decide (j.id ∉ seen))) := by
  intro l
  induction l with
  | nil => intro seen; rw [dedupGo, List.filter_nil, firstOccurrences_nil]
  | cons j rest ih =>
    intro seen
    by_cases h : j.id ∈ seen
    · rw [dedupGo, if_pos h, List.filter_cons_of_neg (by simpa using h)]
      exact ih seen
    · rw [dedupGo, if_neg h, List.filter_cons_of_pos (by simpa using h),
        firstOccurrences_cons, ih (j.id :: seen), List.filter_filter]
      have hpt : ∀ k : NormalizedJob,
          ((k.id != j.id) && decide (k.id ∉ seen)) =
            decide (k.id ∉ j.id :: seen) := by
        intro k
        by_cases h1 : k.id = j.id <;> by_cases h2 : k.id ∈ seen <;>
          simp [h1, h2]
      have hfe : rest.filter
            (fun a => (a.id != j.id) && decide (a.id ∉ seen)) =
          rest.filter (fun a => decide (a.id ∉ j.id :: seen)) := by
        apply List.filter_congr
        intro k _
        exact hpt k
      rw [hfe]

/-- `deduplicate_jobs` computes exactly the first occurrence of each id. -/
theorem deduplicate_jobs_eq_firstOccurrences (jobs : List NormalizedJob) :
    deduplicate_jobs jobs = firstOccurrences jobs := by
  rw [deduplicate_jobs, dedupGo_eq_firstOccurrences]
  have hfe : jobs.filter (fun j => decide (j.id ∉ ([] : List String))) =
      jobs := by
    apply List.filter_eq_self.mpr
    intro a _
    simp
  rw [hfe]

/-- Filtering by an id-determined predicate commutes with taking first
occurrences. -/
theorem filter_firstOccurrences (p : NormalizedJob → Bool)
    (hp : ∀ a b : NormalizedJob, a.id = b.id → p a = p b) :
    ∀ (n : Nat) (l : List NormalizedJob), l.length ≤ n →
      (firstOccurrences l).filter p = firstOccurrences (l.filter p) := by
  intro n
  induction n with
  | zero =>
    intro l hl
    rw [List.eq_nil_of_length_eq_zero (Nat.le_zero.mp hl)]
    simp [firstOccurrences_nil]
  | succ n ih =>
    intro l hl
    match l with
    | [] => simp [firstOccurrences_nil]
    | j :: rest =>
      have hrest : rest.length ≤ n := Nat.le_of_succ_le_succ hl
      by_cases hpj : p j = true
      · rw [firstOccurrences_cons, List.filter_cons_of_pos hpj,
          List.filter_cons_of_pos hpj, firstOccurrences_cons]
        rw [ih (rest.filter (fun k => k.id != j.id))
          (le_trans (List.length_filter_le _ _) hrest)]
        rw [List.filter_filter, List.filter_filter]
        have hfe : rest.filter (fun a => p a && (a.id != j.id)) =
            rest.filter (fun a => (a.id != j.id) && p a) := by
          apply List.filter_congr
          intro k _
          exact Bool.and_comm _ _
        rw [hfe]
      · have hpj' : p j = false := by
          cases hq : p j
          · rfl
          · exact absurd hq hpj
        rw [firstOccurrences_cons, List.filter_cons_of_neg (by simp [hpj']),
          List.filter_cons_of_neg (by simp [hpj'])]
        rw [ih (rest.filter (fun k => k.id != j.id))
          (le_trans (List.length_filter_le _ _) hrest)]
        rw [List.filter_filter]
        have hfe : rest.filter (fun a => p a && (a.id != j.id)) =
            rest.filter p := by
          apply List.filter_congr
          intro k _
          by_cases hk : p k = true
          · have hkid : k.id ≠ j.id := by
              intro hid
              rw [hp k j hid, hpj'] at hk
              exact Bool.false_ne_true hk
            simp [hk, hkid]
          · have hk' : p k = false := by
              cases hq : p k
              · rfl
              · exact absurd hq hk
            simp [hk']
        rw [hfe]

/-- Taking first occurrences is idempotent. -/
theorem firstOccurrences_idem :
    ∀ (n : Nat) (l : List NormalizedJob), l.length ≤ n →
      firstOccurrences (firstOccurrences l) = firstOccurrences l := by
  intro n
  induction n with
  | zero =>
    intro l hl
    rw [List.eq_nil_of_length_eq_zero (Nat.le_zero.mp hl),
      firstOccurrences_nil, firstOccurrences_nil]
  | succ n ih =>
    intro l hl
    match l with
    | [] => rw [firstOccurrences_nil, firstOccurrences_nil]
    | j :: rest =>
      have hrest : rest.length ≤ n := Nat.le_of_succ_le_succ hl
      have hfl : (rest.filter (fun k => k.id != j.id)).length ≤ n :=
        le_trans (List.length_filter_le _ _) hrest
      rw [firstOccurrences_cons, firstOccurrences_cons]
      rw [filter_firstOccurrences (fun k => k.id != j.id)
        (by intro a b hab; simp [hab]) n _ hfl]
      rw [List.filter_filter]
      have hfe : rest.filter (fun a => (a.id != j.id) && (a.id != j.id)) =
          rest.filter (fun k => k.id != j.id) := by
        apply List.filter_congr
        intro k _
        exact Bool.and_self _
      rw [hfe, ih _ hfl]

/-- Taking first occurrences never lengthens a list. -/
theorem firstOccurrences_length_le :
    ∀ (n : Nat) (l : List NormalizedJob), l.length ≤ n →
      (firstOccurrences l).length ≤ l.length := by
  intro n
  induction n with
  | zero =>
    intro l hl
    rw [List.eq_nil_of_length_eq_zero (Nat.le_zero.mp hl),
      firstOccurrences_nil]
  | succ n ih =>
    intro l hl
    match l with
    | [] => rw [firstOccurrences_nil]
    | j :: rest =>
      have hrest : rest.length ≤ n := Nat.le_of_succ_le_succ hl
      rw [firstOccurrences_cons, List.length_cons, List.length_cons]
      have h1 := ih (rest.filter (fun k => k.id != j.id))
        (le_trans (List.length_filter_le _ _) hrest)
      exact Nat.succ_le_succ
        (le_trans h1 (List.length_filter_le _ _))

/-- C6: `deduplicate_jobs` is idempotent, and its output keeps, in input
order, exactly the first occurrence of each distinct job id. -/
theorem deduplicate_jobs_idempotent (jobs : List NormalizedJob) :
    deduplicate_jobs (deduplicate_jobs jobs) = deduplicate_jobs jobs ∧
      deduplicate_jobs jobs = firstOccurrences jobs := by
  have h := deduplicate_jobs_eq_firstOccurrences jobs
  refine ⟨?_, h⟩
  rw [h, deduplicate_jobs_eq_firstOccurrences]
  exact firstOccurrences_idem jobs.length jobs le_rfl


/-- C7: `normalize_job` never raises — in the typed model of the record its
body is total and the `except` branch that returns null is unreachable, so
it returns a job for every input — and on success the description is the
raw description truncated to at most 1000 characters, the required skills
are the first 10 extracted skills, and the preferred skills are empty.
The statement quantifies over the abstracted id generator and skill
extractor. -/
theorem normalize_job_never_fails
    (gen_id : String → String → String → String)
    (extract_skills : String → List String) (raw_job : RawJob) :
    ∃ j : NormalizedJob,
      normalize_job gen_id extract_skills raw_job = some j ∧
      j.description = strTake (raw_job.description.getD "") 1000 ∧
      j.description.length ≤ 1000 ∧
      j.required_skills =
        (extract_skills (raw_job.description.getD "")).take 10 ∧
      j.preferred_skills = [] := by
  refine ⟨_, rfl, rfl, ?_, rfl, rfl⟩
  show (strTake (raw_job.description.getD "") 1000).length ≤ 1000
  have : (strTake (raw_job.description.getD "") 1000).length =
      ((raw_job.description.getD "").data.take 1000).length := rfl
  rw [this]
  exact List.length_take_le _ _

/-- The case-insensitive skill intersection used by the explanation
generator. -/
def skillIntersection (profile : ProfileSchema) (job : NormalizedJob) :
    Finset String :=
  skillSet (profile.skills ++ profile.tools) ∩ skillSet job.required_skills

/-- `_find_skill_matches` is empty exactly when the case-insensitive
intersection is empty. -/
theorem find_skill_matches_empty_iff (user_skills job_skills : List String) :
    _find_skill_matches user_skills job_skills = [] ↔
      skillSet user_skills ∩ skillSet job_skills = ∅ := by
  unfold _find_skill_matches skillSet
  constructor
  · intro hnil
    by_contra hne
    obtain ⟨x, hx⟩ := Finset.nonempty_iff_ne_empty.mpr hne
    have hxu := Finset.mem_of_mem_inter_left hx
    rw [List.mem_toFinset, List.mem_map] at hxu
    obtain ⟨s, hs, hsx⟩ := hxu
    have : s ∈ user_skills.filter (fun skill =>
        pyLower skill ∈
          (user_skills.map pyLower).toFinset ∩
            (job_skills.map pyLower).toFinset) := by
      rw [List.mem_filter]
      exact ⟨hs, by rw [hsx]; simpa using hx⟩
    rw [hnil] at this
    exact absurd this (List.not_mem_nil s)
  · intro hempty
    apply List.filter_eq_nil_iff.mpr
    intro s _
    rw [hempty]
    simp

/-- `_generate_why_match` always produces a nonempty string: the fallback
sentence fires when no threshold applies, and the result ends with a
period. -/
theorem generate_why_match_ne_empty (m : JobMatch)
    (profile : ProfileSchema) : _generate_why_match m profile ≠ "" := by
  unfold _generate_why_match
  intro h
  have hdata := congrArg String.data h
  rw [String.data_append] at hdata
  simp at hdata

/-- C9: when the case-insensitive intersection of the user's skills and
tools with the job's required skills is empty, `generate_explanation`
returns null, whatever the match's scores are. -/
theorem explanation_veto (m : JobMatch) (profile : ProfileSchema)
    (h : skillIntersection profile m.job = ∅) :
    generate_explanation m profile = none := by
  unfold generate_explanation
  rw [if_pos]
  right
  exact (find_skill_matches_empty_iff _ _).mpr h

/-- C10: `generate_explanation` returns null exactly when the
case-insensitive skill intersection is empty — the why-match component
never independently vetoes the result, since `_generate_why_match` always
falls back to a nonempty generic sentence. -/
theorem explanation_none_iff_no_overlap (m : JobMatch)
    (profile : ProfileSchema) :
    generate_explanation m profile = none ↔
      skillIntersection profile m.job = ∅ := by
  constructor
  · intro hnone
    unfold generate_explanation at hnone
    by_cases hc : _generate_why_match m profile = "" ∨
        _find_skill_matches (profile.skills ++ profile.tools)
          m.job.required_skills = []
    · rcases hc with hwhy | hsm
      · exact absurd hwhy (generate_why_match_ne_empty m profile)
      · exact (find_skill_matches_empty_iff _ _).mp hsm
    · rw [if_neg hc] at hnone
      exact absurd hnone (Option.some_ne_none _)
  · intro h
    unfold generate_explanation
    rw [if_pos]
    right
    exact (find_skill_matches_empty_iff _ _).mpr h

/-- C9 witness: a profile knowing only "python" against a job requiring
only "java" has an empty skill intersection, and the explanation is null. -/
theorem explanation_veto_witness :
    skillIntersection sampleProfile sampleMatch.job = ∅ ∧
      generate_explanation sampleMatch sampleProfile = none :=
  ⟨by decide, explanation_veto sampleMatch sampleProfile (by decide)⟩

/-- Membership in an insertion. -/
theorem mem_insertDesc (x m : JobMatch) (l : List JobMatch) :
    m ∈ insertDesc x l ↔ m = x ∨ m ∈ l := by
  induction l with
  | nil => simp [insertDesc]
  | cons y t ih =>
    unfold insertDesc
    by_cases h : y.total_score ≤ x.total_score
    · rw [if_pos h]
      simp [List.mem_cons]
    · rw [if_neg h]
      simp [List.mem_cons, ih]
      tauto

/-- Membership is preserved by the stable sort. -/
theorem mem_sortDesc (m : JobMatch) (l : List JobMatch) :
    m ∈ sortDesc l ↔ m ∈ l := by
  induction l with
  | nil => simp [sortDesc]
  | cons x t ih =>
    show m ∈ insertDesc x (sortDesc t) ↔ _
    rw [mem_insertDesc, ih, List.mem_cons]

/-- Insertion preserves descending sortedness. -/
theorem pairwise_insertDesc (x : JobMatch) (l : List JobMatch)
    (hl : l.Pairwise scoreGE) : (insertDesc x l).Pairwise scoreGE := by
  induction l with
  | nil => simp [insertDesc, scoreGE]
  | cons y t ih =>
    unfold insertDesc
    rw [List.pairwise_cons] at hl
    by_cases h : y.total_score ≤ x.total_score
    · rw [if_pos h]
      rw [List.pairwise_cons]
      refine ⟨?_, List.pairwise_cons.mpr hl⟩
      intro b hb
      rcases List.mem_cons.mp hb with rfl | hbt
      · exact h
      · exact le_trans (hl.1 b hbt) h
    · rw [if_neg h]
      rw [List.pairwise_cons]
      refine ⟨?_, ih hl.2⟩
      intro b hb
      rcases (mem_insertDesc x b t).mp hb with rfl | hbt
      · exact le_of_not_le h
      · exact hl.1 b hbt

/-- The stable sort is descending. -/
theorem pairwise_sortDesc (l : List JobMatch) :
    (sortDesc l).Pairwise scoreGE := by
  induction l with
  | nil => simp [sortDesc]
  | cons x t ih => exact pairwise_insertDesc x (sortDesc t) ih

/-- Stability of the insertion: restricted to one score class, inserting
changes nothing but putting the new element first. -/
theorem filter_insertDesc (x : JobMatch) (l : List JobMatch) (s : ℚ) :
    (insertDesc x l).filter (fun m => m.total_score == s) =
      (x :: l).filter (fun m => m.total_score == s) := by
  induction l with
  | nil => rfl
  | cons y t ih =>
    unfold insertDesc
    by_cases h : y.total_score ≤ x.total_score
    · rw [if_pos h]
    · rw [if_neg h]
      have hxy : x.total_score < y.total_score := lt_of_not_le h
      by_cases hxs : x.total_score = s
      · have hys : ¬ y.total_score = s := by
          rw [← hxs]
          exact ne_of_gt hxy
        simp [List.filter_cons, hxs, hys, ih]
      · by_cases hys : y.total_score = s
        · simp [List.filter_cons, hxs, hys, ih]
        · simp [List.filter_cons, hxs, hys, ih]

/-- Stability of the sort: each score class keeps its input order. -/
theorem filter_sortDesc (l : List JobMatch) (s : ℚ) :
    (sortDesc l).filter (fun m => m.total_score == s) =
      l.filter (fun m => m.total_score == s) := by
  induction l with
  | nil => rfl
  | cons x t ih =>
    show (insertDesc x (sortDesc t)).filter _ = _
    rw [filter_insertDesc]
    simp [List.filter_cons, ih]

/-- Filtering a prefix of a list yields a prefix of the filtered list. -/
theorem filter_take_IsPrefix (p : JobMatch → Bool) (n : Nat)
    (l : List JobMatch) : (l.take n).filter p <+: l.filter p := by
  conv_rhs => rw [← List.take_append_drop n l]
  rw [List.filter_append]
  exact ⟨(l.drop n).filter p, rfl⟩

set_option maxHeartbeats 1000000 in
/-- C4: the output of `match_jobs` contains only matches scoring at least
0.3, has length at most `max_results`, is sorted descending by total score,
keeps input order inside every score class (stability of ties), and under
`remote_only` contains only remote jobs. -/
theorem match_jobs_output_properties (jobs : List NormalizedJob)
    (profile : ProfileSchema) (preferences : UserPreferences)
    (max_results : Nat) :
    (∀ m ∈ match_jobs jobs profile preferences max_results,
        (3/10 : ℚ) ≤ m.total_score) ∧
      (match_jobs jobs profile preferences max_results).length ≤
        max_results ∧
      (match_jobs jobs profile preferences max_results).Pairwise scoreGE ∧
      (∀ s : ℚ,
        (match_jobs jobs profile preferences max_results).filter
            (fun m => m.total_score == s) <+:
          (((_apply_hard_filters jobs preferences).map
              (fun job => _score_job job profile preferences)).filter
            (fun m => (3/10 : ℚ) ≤ m.total_score)).filter
            (fun m => m.total_score == s)) ∧
      (preferences.remote_only = true →
        ∀ m ∈ match_jobs jobs profile preferences max_results,
          m.job.location_type = "remote") := by
  have hmatch : match_jobs jobs profile preferences max_results =
      (sortDesc (((_apply_hard_filters jobs preferences).map
          (fun job => _score_job job profile preferences)).filter
        (fun m => (3/10 : ℚ) ≤ m.total_score))).take max_results := rfl
  refine ⟨?_, ?_, ?_, ?_, ?_⟩
  · intro m hm
    rw [hmatch] at hm
    have hm1 := List.mem_of_mem_take hm
    have hm2 := (mem_sortDesc m _).mp hm1
    have hm3 := (List.mem_filter.mp hm2).2
    exact of_decide_eq_true hm3
  · rw [hmatch]
    exact List.length_take_le _ _
  · rw [hmatch]
    exact (pairwise_sortDesc _).sublist (List.take_sublist _ _)
  · intro s
    rw [hmatch]
    have h1 := filter_take_IsPrefix (fun m => m.total_score == s)
      max_results (sortDesc (((_apply_hard_filters jobs preferences).map
          (fun job => _score_job job profile preferences)).filter
        (fun m => (3/10 : ℚ) ≤ m.total_score)))
    rwa [filter_sortDesc] at h1
  · intro hro m hm
    rw [hmatch] at hm
    have hm1 := List.mem_of_mem_take hm
    have hm2 := (mem_sortDesc m _).mp hm1
    have hm3 := (List.mem_filter.mp hm2).1
    obtain ⟨job, hjob, hjm⟩ := List.mem_map.mp hm3
    have hjf := (List.mem_filter.mp hjob).2
    rw [hro] at hjf
    simp only [Bool.true_and, Bool.not_not] at hjf
    have hmj : m.job = job := by
      rw [← hjm]
      rfl
    rw [hmj]
    exact beq_iff_eq.mp hjf
